import Mathlib

/-
Verification of the conversation session and history subsystem of the
ollama-ui chat service (src/ollama-ui/app.py).

Modelling choices:
- A persisted message row is `Msg` (session_id, role, content, metadata).
  The store is the list of rows in insertion order; Postgres assigns
  monotonically increasing ids and non-decreasing created_at timestamps,
  so insertion order coincides with `ORDER BY created_at ASC` (ties broken
  by id, per the schema's BIGSERIAL primary key).
- `fetch_history` mirrors the SQL query: filter by session_id, keep
  ascending created_at order (= insertion order), apply LIMIT, and project
  to (role, content, metadata) rows (`Row`).
- Python dict metadata is modelled by its `json.dumps` serialization, an
  opaque string; `json.dumps(\x7b\x7d, indent=2)` is the two-character
  string rendered here as `emptyMetadata`.
- The Ollama backend call is modelled by `BackendOutcome`: either a raised
  exception (requests error / HTTP error / timeout, carrying `str(exc)`)
  or a parsed response body (reply text, metadata). `chat_with_ollama`
  then raises RuntimeError on an empty/missing reply, exactly as the
  source does; a missing "content" key (Python None) and an empty string
  reply are both falsy and are modelled by the empty string.
- `handle_chat` is the orchestrator; the Gradio `gr.update()` returned on
  empty input (leave the metadata textbox unchanged) is modelled as `none`
  in the `metadata_out` field.
-/

namespace OllamaUI

/-- A row of the conversation_history table, in the shape `fetch_history`
returns it: (role, content, metadata). -/
structure Row where
  role : String
  content : String
  metadata : String
deriving DecidableEq, Repr

/-- A full persisted message: session_id plus the fetched columns. The
store-assigned id and created_at are represented by the row's position in
the store list (insertion order). -/
structure Msg where
  session_id : String
  role : String
  content : String
  metadata : String
deriving DecidableEq, Repr

/-- The serialization `json.dumps` gives the empty dict (used for the user
message's metadata and for the synthesized error reply's metadata). -/
def emptyMetadata : String := "\x7b\x7d"

/-- `append_message`: INSERT one row at the end of the log. -/
def append_message (store : List Msg) (session_id role content metadata : String) :
    List Msg :=
  store ++ [⟨session_id, role, content, metadata⟩]

/-- The rows of one session in ascending created_at order (the WHERE clause
of `fetch_history`, before LIMIT and projection). -/
def sessionMsgs (store : List Msg) (session_id : String) : List Msg :=
  store.filter (fun m => m.session_id == session_id)

/-- Projection to the SELECTed columns role, content, metadata. -/
def projRow (m : Msg) : Row := ⟨m.role, m.content, m.metadata⟩

/-- `fetch_history`: SELECT role, content, metadata WHERE session_id = %s
ORDER BY created_at ASC LIMIT %s. The LIMIT bound comes from the
environment (`MAX_HISTORY_MESSAGES`) and is passed explicitly here. -/
def fetch_history (limit : Nat) (store : List Msg) (session_id : String) :
    List Row :=
  ((sessionMsgs store session_id).take limit).map projRow

/-- `delete_session`: DELETE FROM conversation_history WHERE session_id = %s. -/
def delete_session (store : List Msg) (session_id : String) : List Msg :=
  store.filter (fun m => !(m.session_id == session_id))

/-- `delete_all_sessions`: DELETE FROM conversation_history. -/
def delete_all_sessions (_store : List Msg) : List Msg := []

/-- One iteration of the `history_to_chat_pairs` loop. The state is the
accumulated pairs list plus `current_user` (None ↦ `none`). -/
def chatStep (st : List (String × String) × Option String) (r : Row) :
    List (String × String) × Option String :=
  if r.role == "user" then (st.1, some r.content)
  else if r.role == "assistant" then (st.1 ++ [(st.2.getD "", r.content)], none)
  else st

/-- `history_to_chat_pairs`: fold the loop over the rows, then the final
`if current_user:` (truthy test: not None and not the empty string). -/
def history_to_chat_pairs (rows : List Row) : List (String × String) :=
  let st := rows.foldl chatStep ([], none)
  match st.2 with
  | some u => if u == "" then st.1 else st.1 ++ [(u, "")]
  | none => st.1

/-- `build_messages`: the system entry, then one entry per history row in
order, then the new user entry. Entries are (role, content) pairs. The
system prompt comes from the environment and is passed explicitly. -/
def build_messages (system_prompt : String) (rows : List Row)
    (user_message : String) : List (String × String) :=
  (rows.foldl (fun acc r => acc ++ [(r.role, r.content)])
    [("system", system_prompt)]) ++ [("user", user_message)]

/-- Outcome of the HTTP round trip to Ollama: either an exception raised by
requests / raise_for_status / timeout (carrying `str(exc)`), or the parsed
response fields. -/
inductive BackendOutcome where
  | exn (msg : String)
  | response (reply : String) (metadata : String)
deriving DecidableEq, Repr

/-- `chat_with_ollama` after the HTTP round trip: raises (=.error) on an
exception or on an empty/missing reply, otherwise returns the reply and
the metadata map. -/
def chat_with_ollama (out : BackendOutcome) : Except String (String × String) :=
  match out with
  | .exn m => .error m
  | .response reply md =>
      if reply == "" then .error "Empty response from Ollama" else .ok (reply, md)

/-- Result of `handle_chat`: the updated Gradio pair history, the metadata
textbox update (`none` models `gr.update()`, i.e. leave unchanged), the
session id, and the store after the turn's writes. -/
structure ChatResult where
  history : List (String × String)
  metadata_out : Option String
  session_id : String
  store : List Msg
deriving DecidableEq, Repr

/-- `handle_chat`: no-op on empty input; otherwise fetch bounded history,
build the prompt, persist the user message, call the backend, persist the
assistant reply (the real one, or the synthesized "Error: ..." one with
empty metadata when the call raises), and return the extended pair list. -/
def handle_chat (backend : List (String × String) → BackendOutcome)
    (limit : Nat) (system_prompt : String) (store : List Msg)
    (user_message : String) (history : List (String × String))
    (session_id : String) : ChatResult :=
  if user_message == "" then ⟨history, none, session_id, store⟩
  else
    let stored_history := fetch_history limit store session_id
    let messages := build_messages system_prompt stored_history user_message
    let store1 := append_message store session_id "user" user_message emptyMetadata
    match chat_with_ollama (backend messages) with
    | .error e =>
        ⟨history ++ [(user_message, "Error: " ++ e)], some emptyMetadata, session_id,
          append_message store1 session_id "assistant" ("Error: " ++ e) emptyMetadata⟩
    | .ok (reply, md) =>
        ⟨history ++ [(user_message, reply)], some md, session_id,
          append_message store1 session_id "assistant" reply md⟩

/-- Run a sequence of turns against one session, threading the store and the
pair history through `handle_chat`. Each turn carries the backend outcome
its HTTP call produced. -/
def runTurns (limit : Nat) (system_prompt sid : String) :
    List Msg → List (String × String) → List (String × BackendOutcome) →
    List (String × String) × List Msg
  | store, hist, [] => (hist, store)
  | store, hist, t :: ts =>
      runTurns limit system_prompt sid
        (handle_chat (fun _ => t.2) limit system_prompt store t.1 hist sid).store
        (handle_chat (fun _ => t.2) limit system_prompt store t.1 hist sid).history ts

/-- The assistant text `handle_chat` persists for a given backend outcome. -/
def replyText (out : BackendOutcome) : String :=
  match chat_with_ollama out with
  | .error e => "Error: " ++ e
  | .ok (r, _) => r

/-- The metadata `handle_chat` persists with the assistant reply. -/
def mdText (out : BackendOutcome) : String :=
  match chat_with_ollama out with
  | .error _ => emptyMetadata
  | .ok (_, md) => md

/-- The two rows one effective (non-empty-input) turn appends for session
`sid`. -/
def turnMsgs (sid : String) (t : String × BackendOutcome) : List Msg :=
  [⟨sid, "user", t.1, emptyMetadata⟩, ⟨sid, "assistant", replyText t.2, mdText t.2⟩]

/-- All rows a turn sequence appends for session `sid`: two per turn with
non-empty user text, none for empty-input turns. -/
def turnRows (sid : String) (ts : List (String × BackendOutcome)) : List Msg :=
  ((ts.filter (fun t => !(t.1 == ""))).map (turnMsgs sid)).flatten

/-- A row with its metadata field cleared (for metadata-independence). -/
def stripMeta (r : Row) : Row := ⟨r.role, r.content, ""⟩

/-- The final `if current_user:` step of `history_to_chat_pairs`, applied to
the loop's final state. -/
def finalizeChat (st : List (String × String) × Option String) :
    List (String × String) :=
  match st.2 with
  | some u => if u == "" then st.1 else st.1 ++ [(u, "")]
  | none => st.1

/-- Recursion-friendly reformulation of the `history_to_chat_pairs` loop:
the pairs still to be emitted, given the pending `current_user` state.
Proved equal to the foldl form below. -/
def chatAux (cur : Option String) : List Row → List (String × String)
  | [] =>
      match cur with
      | some u => if u == "" then [] else [(u, "")]
      | none => []
  | r :: rs =>
      if r.role == "user" then chatAux (some r.content) rs
      else if r.role == "assistant" then (cur.getD "", r.content) :: chatAux none rs
      else chatAux cur rs

lemma finalize_foldl (rows : List Row) :
    ∀ (ps : List (String × String)) (cur : Option String),
      finalizeChat (rows.foldl chatStep (ps, cur)) = ps ++ chatAux cur rows := by
  induction rows with
  | nil =>
      intro ps cur
      cases cur with
      | none => simp [finalizeChat, chatAux]
      | some u =>
          by_cases hu : u == ""
          · simp [finalizeChat, chatAux, hu]
          · simp [finalizeChat, chatAux, hu]
  | cons r rs ih =>
      intro ps cur
      by_cases h1 : r.role == "user"
      · simp only [List.foldl_cons, chatStep, h1, if_true, ih, chatAux]
      · by_cases h2 : r.role == "assistant"
        · simp only [List.foldl_cons, chatStep, h1, h2, if_true, if_false, ih, chatAux,
            Bool.false_eq_true]
          simp
        · simp only [List.foldl_cons, chatStep, h1, h2, if_false, ih, chatAux,
            Bool.false_eq_true]

lemma history_eq_chatAux (rows : List Row) :
    history_to_chat_pairs rows = chatAux none rows := by
  have h := finalize_foldl rows [] none
  simpa [history_to_chat_pairs, finalizeChat] using h

lemma foldl_push {α : Type} (f : Row → α) :
    ∀ (rows : List Row) (acc : List α),
      rows.foldl (fun a r => a ++ [f r]) acc = acc ++ rows.map f := by
  intro rows
  induction rows with
  | nil => intro acc; simp
  | cons r rs ih => intro acc; simp [ih]

lemma build_messages_eq (sp : String) (rows : List Row) (um : String) :
    build_messages sp rows um
      = ("system", sp) :: (rows.map fun r => (r.role, r.content)) ++ [("user", um)] := by
  simp [build_messages, foldl_push]

lemma chatAux_roleContent :
    ∀ (l1 l2 : List Row),
      l1.map (fun r => (r.role, r.content)) = l2.map (fun r => (r.role, r.content)) →
      ∀ cur, chatAux cur l1 = chatAux cur l2 := by
  intro l1
  induction l1 with
  | nil =>
      intro l2 h cur
      cases l2 with
      | nil => rfl
      | cons r2 rs2 => simp at h
  | cons r rs ih =>
      intro l2 h cur
      cases l2 with
      | nil => simp at h
      | cons r2 rs2 =>
          simp only [List.map_cons, List.cons.injEq, Prod.mk.injEq] at h
          obtain ⟨⟨hrole, hcont⟩, htail⟩ := h
          by_cases h1 : r.role == "user"
          · have h1' : r2.role == "user" := by rw [← hrole]; exact h1
            simp [chatAux, h1, h1', hcont, ih rs2 htail]
          · have h1' : ¬ (r2.role == "user") := by rw [← hrole]; exact h1
            by_cases h2 : r.role == "assistant"
            · have h2' : r2.role == "assistant" := by rw [← hrole]; exact h2
              simp [chatAux, h1, h1', h2, h2', hcont, ih rs2 htail]
            · have h2' : ¬ (r2.role == "assistant") := by rw [← hrole]; exact h2
              simp [chatAux, h1, h1', h2, h2', ih rs2 htail]

/-- Claim C3: `handle_chat` with empty user_text returns the input history
unchanged, leaves the metadata box untouched, keeps the session id, and
performs zero store writes (the store is returned identical). -/
theorem c3_empty_input_noop (backend : List (String × String) → BackendOutcome)
    (limit : Nat) (sp : String) (store : List Msg)
    (history : List (String × String)) (sid : String) :
    handle_chat backend limit sp store "" history sid
      = ⟨history, none, sid, store⟩ := by
  simp [handle_chat]

/-- Claim C4: `build_messages` returns the system entry, then each history
row as its own (role, content) entry in order, then a final user entry for
the new user message; its length is the history length plus two. -/
theorem c4_build_messages_shape (sp : String) (rows : List Row) (um : String) :
    build_messages sp rows um
        = ("system", sp) :: (rows.map fun r => (r.role, r.content)) ++ [("user", um)]
      ∧ (build_messages sp rows um).length = rows.length + 2 := by
  refine ⟨build_messages_eq sp rows um, ?_⟩
  rw [build_messages_eq]
  simp

/-- Claim C5 as stated is false: a leading assistant-role message with no
pending user message is NOT dropped — `history_to_chat_pairs` emits the
pair ("", "hi") for the single-row history [assistant "hi"]. -/
theorem c5_counterexample :
    history_to_chat_pairs [⟨"assistant", "hi", ""⟩] = [("", "hi")]
      ∧ history_to_chat_pairs [⟨"assistant", "hi", ""⟩] ≠ [] := by
  constructor
  · rfl
  · decide

/-- Claim C5 (amended): a leading or stray assistant-role message that
arrives when no user-role message is pending is emitted as a pair whose
user side is the empty string (it is not dropped), and processing of the
remaining rows continues with no pending user message. -/
theorem c5_stray_assistant (a md : String) (rest : List Row) :
    history_to_chat_pairs (⟨"assistant", a, md⟩ :: rest)
      = ("", a) :: history_to_chat_pairs rest := by
  rw [history_eq_chatAux, history_eq_chatAux]
  simp [chatAux]

/-- Claim C10: two histories equal except in per-message metadata produce
identical chat-pair lists and identical prompt lists — neither
`history_to_chat_pairs` nor `build_messages` depends on metadata. -/
theorem c10_metadata_independent (rows1 rows2 : List Row) (sp um : String)
    (h : rows1.map stripMeta = rows2.map stripMeta) :
    history_to_chat_pairs rows1 = history_to_chat_pairs rows2
      ∧ build_messages sp rows1 um = build_messages sp rows2 um := by
  have hrc : rows1.map (fun r => (r.role, r.content))
      = rows2.map (fun r => (r.role, r.content)) := by
    have e1 : rows1.map (fun r => (r.role, r.content))
        = (rows1.map stripMeta).map (fun r => (r.role, r.content)) := by
      simp [List.map_map, stripMeta, Function.comp]
    have e2 : rows2.map (fun r => (r.role, r.content))
        = (rows2.map stripMeta).map (fun r => (r.role, r.content)) := by
      simp [List.map_map, stripMeta, Function.comp]
    rw [e1, e2, h]
  constructor
  · rw [history_eq_chatAux, history_eq_chatAux]
    exact chatAux_roleContent rows1 rows2 hrc none
  · rw [build_messages_eq, build_messages_eq, hrc]

/-- Witness for C10 at concrete rows differing only in metadata. -/
theorem c10_metadata_independent_witness :
    history_to_chat_pairs [⟨"user", "u", "m1"⟩]
        = history_to_chat_pairs [⟨"user", "u", "m2"⟩]
      ∧ build_messages "sp" [⟨"user", "u", "m1"⟩] "x"
        = build_messages "sp" [⟨"user", "u", "m2"⟩] "x" :=
  c10_metadata_independent [⟨"user", "u", "m1"⟩] [⟨"user", "u", "m2"⟩] "sp" "x"
    (by decide)

/-- Claim C2: on non-empty input, when the backend call raises (or times
out, or returns an empty reply — all modelled as `chat_with_ollama`
returning `.error e`), `handle_chat` still persists the user message, then
an assistant message "Error: ..." with empty metadata; it returns normally
(no exception: the model is a total function), and the returned turn list's
last pair is (user_text, "Error: ..."). -/
theorem c2_backend_failure (backend : List (String × String) → BackendOutcome)
    (limit : Nat) (sp : String) (store : List Msg) (um : String)
    (hist : List (String × String)) (sid e : String)
    (hum : um ≠ "")
    (herr : chat_with_ollama
      (backend (build_messages sp (fetch_history limit store sid) um)) = .error e) :
    (handle_chat backend limit sp store um hist sid).store
        = store ++ [⟨sid, "user", um, emptyMetadata⟩,
                    ⟨sid, "assistant", "Error: " ++ e, emptyMetadata⟩]
      ∧ (handle_chat backend limit sp store um hist sid).history
          = hist ++ [(um, "Error: " ++ e)]
      ∧ (handle_chat backend limit sp store um hist sid).history.getLast?
          = some (um, "Error: " ++ e)
      ∧ (handle_chat backend limit sp store um hist sid).metadata_out
          = some emptyMetadata
      ∧ (∃ tail, "Error: " ++ e = "Error:" ++ tail) := by
  have hb : (um == "") = false := beq_eq_false_iff_ne.mpr hum
  have hsplit : ("Error: " ++ e : String) = "Error:" ++ (" " ++ e) := by
    rw [← String.append_assoc]
    have : ("Error: " : String) = "Error:" ++ " " := by decide
    rw [this]
  refine ⟨?_, ?_, ?_, ?_, ⟨" " ++ e, hsplit⟩⟩
  · simp [handle_chat, hb, herr, append_message]
  · simp [handle_chat, hb, herr]
  · simp [handle_chat, hb, herr]
  · simp [handle_chat, hb, herr]

/-- Witness for C2: one failing turn against an empty store. -/
theorem c2_backend_failure_witness :
    (handle_chat (fun _ => .exn "boom") 40 "sp" [] "ping" [] "s1").store
        = [] ++ [⟨"s1", "user", "ping", emptyMetadata⟩,
                 ⟨"s1", "assistant", "Error: " ++ "boom", emptyMetadata⟩]
      ∧ (handle_chat (fun _ => .exn "boom") 40 "sp" [] "ping" [] "s1").history
          = [] ++ [("ping", "Error: " ++ "boom")]
      ∧ (handle_chat (fun _ => .exn "boom") 40 "sp" [] "ping" [] "s1").history.getLast?
          = some ("ping", "Error: " ++ "boom")
      ∧ (handle_chat (fun _ => .exn "boom") 40 "sp" [] "ping" [] "s1").metadata_out
          = some emptyMetadata
      ∧ (∃ tail, "Error: " ++ "boom" = "Error:" ++ tail) :=
  c2_backend_failure (fun _ => .exn "boom") 40 "sp" [] "ping" [] "s1" "boom"
    (by decide) rfl

lemma chatAux_cons_user (r : Row) (hr : r.role = "user") (cur : Option String)
    (rs : List Row) :
    chatAux cur (r :: rs) = chatAux (some r.content) rs := by
  simp [chatAux, hr]

lemma chatAux_cons_assistant (r : Row) (hr : r.role = "assistant")
    (cur : Option String) (rs : List Row) :
    chatAux cur (r :: rs) = (cur.getD "", r.content) :: chatAux none rs := by
  have h1 : (("assistant" : String) == "user") = false := by decide
  simp [chatAux, hr, h1]

lemma chatAux_users_then_assistant (arow : Row) (ha : arow.role = "assistant")
    (rest : List Row) :
    ∀ (urows : List Row) (h : urows ≠ []) (_ : ∀ r ∈ urows, r.role = "user")
      (cur : Option String),
      chatAux cur (urows ++ arow :: rest)
        = ((urows.getLast h).content, arow.content) :: chatAux none rest := by
  intro urows
  induction urows with
  | nil => intro h; exact absurd rfl h
  | cons u us ih =>
      intro h hall cur
      have hu : u.role = "user" := hall u (List.mem_cons_self u us)
      cases us with
      | nil =>
          rw [List.singleton_append, chatAux_cons_user u hu,
            chatAux_cons_assistant arow ha]
          simp
      | cons u2 us2 =>
          have htail : ∀ r ∈ u2 :: us2, r.role = "user" := by
            intro r hr; exact hall r (List.mem_cons_of_mem u hr)
          have hstep := ih (by simp) htail (some u.content)
          rw [List.cons_append, chatAux_cons_user u hu, hstep]
          simp [List.getLast_cons]

lemma chatAux_trailing_user (urow : Row) (hr : urow.role = "user")
    (hc : urow.content ≠ "") :
    ∀ (ms : List Row) (cur : Option String),
      ∃ c, chatAux cur (ms ++ [urow]) = c ++ [(urow.content, "")] := by
  intro ms
  induction ms with
  | nil =>
      intro cur
      refine ⟨[], ?_⟩
      have hb : (urow.content == "") = false := beq_eq_false_iff_ne.mpr hc
      simp [chatAux, hr, hb]
  | cons m ms ih =>
      intro cur
      by_cases h1 : m.role == "user"
      · obtain ⟨c, hc'⟩ := ih (some m.content)
        exact ⟨c, by simp [chatAux, h1, hc']⟩
      · by_cases h2 : m.role == "assistant"
        · obtain ⟨c, hc'⟩ := ih none
          refine ⟨(cur.getD "", m.content) :: c, ?_⟩
          simp [chatAux, h1, h2, hc']
        · obtain ⟨c, hc'⟩ := ih cur
          exact ⟨c, by simp [chatAux, h1, h2, hc']⟩

/-- Claim C6: (i) a block of consecutive user-role messages followed by an
assistant-role message yields exactly one emitted pair, whose user side is
the LAST user message of the block (earlier pending ones are discarded)
and whose assistant side is that reply, after which pairing continues on
the remaining rows with no pending user; (ii) a trailing user-role message
(non-empty content, per the data model) with no following assistant message
is emitted as the final pair with an empty assistant side. -/
theorem c6_turn_pairing :
    (∀ (urows : List Row) (h : urows ≠ [])
       (_ : ∀ r ∈ urows, r.role = "user")
       (arow : Row) (_ : arow.role = "assistant") (rest : List Row),
       history_to_chat_pairs (urows ++ arow :: rest)
         = ((urows.getLast h).content, arow.content) :: history_to_chat_pairs rest)
    ∧ (∀ (urow : Row), urow.role = "user" → urow.content ≠ "" →
       ∀ (ms : List Row),
         ∃ c, history_to_chat_pairs (ms ++ [urow]) = c ++ [(urow.content, "")]) := by
  constructor
  · intro urows h hall arow ha rest
    rw [history_eq_chatAux, history_eq_chatAux]
    exact chatAux_users_then_assistant arow ha rest urows h hall none
  · intro urow hr hc ms
    rw [history_eq_chatAux]
    exact chatAux_trailing_user urow hr hc ms none

/-- Witness for C6: two users before one reply collapse to the last user;
a trailing user after a stray assistant row ends as a pending pair. -/
theorem c6_turn_pairing_witness :
    history_to_chat_pairs
        [⟨"user", "u1", "m1"⟩, ⟨"user", "u2", "m2"⟩, ⟨"assistant", "a", "m3"⟩]
      = (("u2", "a")) :: history_to_chat_pairs []
    ∧ ∃ c, history_to_chat_pairs [⟨"assistant", "a0", ""⟩, ⟨"user", "u", ""⟩]
        = c ++ [("u", "")] := by
  constructor
  · exact c6_turn_pairing.1 [⟨"user", "u1", "m1"⟩, ⟨"user", "u2", "m2"⟩]
      (by decide) (by decide) ⟨"assistant", "a", "m3"⟩ rfl []
  · exact c6_turn_pairing.2 ⟨"user", "u", ""⟩ rfl (by decide)
      [⟨"assistant", "a0", ""⟩]

/-- Claim C7: `fetch_history` returns at most `limit` messages; every row it
ranges over belongs to the requested session; and a message appended to a
different session never changes (so never appears in) the fetch of this
session. -/
theorem c7_fetch_bound_and_isolation (limit : Nat) (store : List Msg) (sid : String) :
    (fetch_history limit store sid).length ≤ limit
    ∧ (∀ m ∈ (sessionMsgs store sid).take limit, m.session_id = sid)
    ∧ (∀ (A r c md : String), A ≠ sid →
        fetch_history limit (append_message store A r c md) sid
          = fetch_history limit store sid) := by
  refine ⟨?_, ?_, ?_⟩
  · simp [fetch_history]
  · intro m hm
    have hm' := List.mem_of_mem_take hm
    simp only [sessionMsgs, List.mem_filter] at hm'
    exact eq_of_beq hm'.2
  · intro A r c md hA
    have hb : (A == sid) = false := beq_eq_false_iff_ne.mpr hA
    simp [fetch_history, sessionMsgs, append_message, List.filter_append, hb]

/-- Witness for C7 at a concrete two-session store. -/
theorem c7_fetch_bound_and_isolation_witness :
    (fetch_history 1 [⟨"sA", "user", "x", ""⟩, ⟨"sB", "user", "y", ""⟩] "sB").length ≤ 1
    ∧ (∀ m ∈ (sessionMsgs [⟨"sA", "user", "x", ""⟩, ⟨"sB", "user", "y", ""⟩] "sB").take 1,
        m.session_id = "sB")
    ∧ fetch_history 1
        (append_message [⟨"sA", "user", "x", ""⟩, ⟨"sB", "user", "y", ""⟩] "sA" "user" "z" "")
        "sB"
      = fetch_history 1 [⟨"sA", "user", "x", ""⟩, ⟨"sB", "user", "y", ""⟩] "sB" := by
  have h := c7_fetch_bound_and_isolation 1
    [⟨"sA", "user", "x", ""⟩, ⟨"sB", "user", "y", ""⟩] "sB"
  exact ⟨h.1, h.2.1, h.2.2 "sA" "user" "z" "" (by decide)⟩

/-- Claim C8: when a session holds more than `limit` messages,
`fetch_history` returns exactly `limit` of them — the OLDEST ones, i.e.
pointwise the first `limit` entries of the session's ascending-created_at
log (a prefix, not the most recent suffix); and for a session with no rows
(unknown session_id) it returns the empty sequence rather than an error. -/
theorem c8_fetch_oldest_prefix (limit : Nat) (store : List Msg) (sid : String)
    (hlong : limit < (sessionMsgs store sid).length) :
    (fetch_history limit store sid).length = limit
    ∧ (∀ i, i < limit →
        (fetch_history limit store sid)[i]?
          = ((sessionMsgs store sid).map projRow)[i]?)
    ∧ (∀ sid2, sessionMsgs store sid2 = [] → fetch_history limit store sid2 = []) := by
  refine ⟨?_, ?_, ?_⟩
  · simp [fetch_history]
    omega
  · intro i hi
    simp [fetch_history, List.getElem?_take, hi]
  · intro sid2 h2
    simp [fetch_history, h2]

/-- Witness for C8: a three-message session fetched with limit 2 returns the
two oldest messages. -/
theorem c8_fetch_oldest_prefix_witness :
    (fetch_history 2 [⟨"s", "user", "a", ""⟩, ⟨"s", "assistant", "b", ""⟩,
        ⟨"s", "user", "c", ""⟩] "s").length = 2
    ∧ (∀ i, i < 2 →
        (fetch_history 2 [⟨"s", "user", "a", ""⟩, ⟨"s", "assistant", "b", ""⟩,
            ⟨"s", "user", "c", ""⟩] "s")[i]?
          = ((sessionMsgs [⟨"s", "user", "a", ""⟩, ⟨"s", "assistant", "b", ""⟩,
              ⟨"s", "user", "c", ""⟩] "s").map projRow)[i]?)
    ∧ (∀ sid2, sessionMsgs [⟨"s", "user", "a", ""⟩, ⟨"s", "assistant", "b", ""⟩,
          ⟨"s", "user", "c", ""⟩] sid2 = [] →
        fetch_history 2 [⟨"s", "user", "a", ""⟩, ⟨"s", "assistant", "b", ""⟩,
          ⟨"s", "user", "c", ""⟩] sid2 = []) :=
  c8_fetch_oldest_prefix 2 [⟨"s", "user", "a", ""⟩, ⟨"s", "assistant", "b", ""⟩,
    ⟨"s", "user", "c", ""⟩] "s" (by decide)

/-- Claim C9: deleting a session then fetching it yields the empty sequence;
deleting a session with zero messages leaves the store identical (a no-op,
and the model is a total function, so no error); and in all cases the
messages of every other session are unchanged. -/
theorem c9_delete_then_fetch_empty (limit : Nat) (store : List Msg) (sid : String) :
    fetch_history limit (delete_session store sid) sid = []
    ∧ (sessionMsgs store sid = [] → delete_session store sid = store)
    ∧ (∀ sid2, sid2 ≠ sid →
        sessionMsgs (delete_session store sid) sid2 = sessionMsgs store sid2) := by
  refine ⟨?_, ?_, ?_⟩
  · simp [fetch_history, sessionMsgs, delete_session, List.filter_filter]
  · intro h
    rw [delete_session, List.filter_eq_self]
    intro m hm
    by_contra hcon
    have hmem : m ∈ store.filter (fun m => m.session_id == sid) := by
      rw [List.mem_filter]
      exact ⟨hm, by simpa using hcon⟩
    rw [show store.filter (fun m => m.session_id == sid) = sessionMsgs store sid from rfl,
      h] at hmem
    exact absurd hmem (List.not_mem_nil m)
  · intro sid2 h2
    rw [sessionMsgs, delete_session, List.filter_filter]
    apply List.filter_congr
    intro m _
    by_cases hb : m.session_id == sid2
    · have : m.session_id = sid2 := eq_of_beq hb
      have : (m.session_id == sid) = false := by
        rw [this]; exact beq_eq_false_iff_ne.mpr h2
      simp [hb, this]
    · simp [hb]

/-- Witness for C9 at a concrete two-session store. -/
theorem c9_delete_then_fetch_empty_witness :
    fetch_history 40 (delete_session [⟨"sA", "user", "x", ""⟩] "sB") "sB" = []
    ∧ (sessionMsgs [⟨"sA", "user", "x", ""⟩] "sB" = [] →
        delete_session [⟨"sA", "user", "x", ""⟩] "sB" = [⟨"sA", "user", "x", ""⟩])
    ∧ (∀ sid2, sid2 ≠ "sB" →
        sessionMsgs (delete_session [⟨"sA", "user", "x", ""⟩] "sB") sid2
          = sessionMsgs [⟨"sA", "user", "x", ""⟩] sid2) :=
  c9_delete_then_fetch_empty 40 [⟨"sA", "user", "x", ""⟩] "sB"

lemma flatten_turnMsgs_length (sid : String) :
    ∀ (qs : List (String × BackendOutcome)),
      ((qs.map (turnMsgs sid)).flatten).length = 2 * qs.length := by
  intro qs
  induction qs with
  | nil => rfl
  | cons t ts ih =>
      simp only [List.map_cons, List.flatten_cons, List.length_append, ih, turnMsgs,
        List.length_cons, List.length_nil, List.length_map]
      omega

lemma chatAux_flatten_turnMsgs (sid : String) :
    ∀ (qs : List (String × BackendOutcome)),
      chatAux none (((qs.map (turnMsgs sid)).flatten).map projRow)
        = qs.map (fun t => (t.1, replyText t.2)) := by
  intro qs
  induction qs with
  | nil => rfl
  | cons t ts ih =>
      simp only [List.map_cons, List.flatten_cons, List.map_append, turnMsgs, projRow,
        List.map_nil, List.nil_append, List.cons_append]
      rw [chatAux_cons_user _ rfl, chatAux_cons_assistant _ rfl]
      simp only [Option.getD_some, ih]

lemma sessionMsgs_append (l1 l2 : List Msg) (sid : String) :
    sessionMsgs (l1 ++ l2) sid = sessionMsgs l1 sid ++ sessionMsgs l2 sid :=
  List.filter_append _ _

lemma sessionMsgs_turnMsgs (sid : String) (t : String × BackendOutcome) :
    sessionMsgs (turnMsgs sid t) sid = turnMsgs sid t := by
  simp [sessionMsgs, turnMsgs]

lemma handle_chat_store_effect (backend : List (String × String) → BackendOutcome)
    (limit : Nat) (sp : String) (store : List Msg) (um : String)
    (hist : List (String × String)) (sid : String) (hum : (um == "") = false) :
    (handle_chat backend limit sp store um hist sid).store
        = store ++ turnMsgs sid (um, backend (build_messages sp (fetch_history limit store sid) um))
      ∧ (handle_chat backend limit sp store um hist sid).history
        = hist ++ [(um, replyText (backend (build_messages sp (fetch_history limit store sid) um)))] := by
  cases hres : chat_with_ollama (backend (build_messages sp (fetch_history limit store sid) um)) with
  | error e =>
      constructor <;>
        simp [handle_chat, hum, hres, append_message, turnMsgs, replyText, mdText]
  | ok p =>
      obtain ⟨reply, md⟩ := p
      constructor <;>
        simp [handle_chat, hum, hres, append_message, turnMsgs, replyText, mdText]

lemma runTurns_sessionMsgs (limit : Nat) (sp sid : String) :
    ∀ (ts : List (String × BackendOutcome)) (store : List Msg)
      (hist : List (String × String)),
      sessionMsgs (runTurns limit sp sid store hist ts).2 sid
        = sessionMsgs store sid ++ turnRows sid ts := by
  intro ts
  induction ts with
  | nil => intro store hist; simp [runTurns, turnRows]
  | cons t ts ih =>
      intro store hist
      by_cases ht : (t.1 == "") = true
      · have ht' : t.1 = "" := eq_of_beq ht
        have hnoop : handle_chat (fun _ => t.2) limit sp store t.1 hist sid
            = ⟨hist, none, sid, store⟩ := by
          simp [handle_chat, ht']
        rw [runTurns, hnoop, ih store hist]
        simp [turnRows, ht]
      · have ht' : (t.1 == "") = false := by simpa using ht
        rw [runTurns, ih _ _,
          (handle_chat_store_effect (fun _ => t.2) limit sp store t.1 hist sid ht').1]
        rw [sessionMsgs_append, sessionMsgs_turnMsgs]
        have hsplit : turnRows sid (t :: ts) = turnMsgs sid (t.1, t.2) ++ turnRows sid ts := by
          simp [turnRows, ht']
        rw [hsplit, List.append_assoc]

/-- Claim C1: starting from a store with no rows for the session, running
any sequence of `handle_chat` turns and then reading the session back with
`history_to_chat_pairs (fetch_history L ...)` for an unbounded L (at least
twice the number of effective turns) reproduces exactly the completed
(user_text, assistant_text) pairs in submission order — the assistant text
being the backend reply, or the synthesized "Error: ..." on failure.
Empty-input submissions are no-ops and contribute no pair; since every
effective turn persists a reply (real or synthesized), the pending-pair
case of the claim never arises and the equality below is exact. -/
theorem c1_replay_roundtrip (limit L : Nat) (sp sid : String) (s0 : List Msg)
    (hist0 : List (String × String)) (ts : List (String × BackendOutcome))
    (hfresh : sessionMsgs s0 sid = [])
    (hL : 2 * (ts.filter (fun t => !(t.1 == ""))).length ≤ L) :
    history_to_chat_pairs (fetch_history L (runTurns limit sp sid s0 hist0 ts).2 sid)
      = (ts.filter (fun t => !(t.1 == ""))).map (fun t => (t.1, replyText t.2)) := by
  have hsess : sessionMsgs (runTurns limit sp sid s0 hist0 ts).2 sid = turnRows sid ts := by
    rw [runTurns_sessionMsgs limit sp sid ts s0 hist0, hfresh, List.nil_append]
  have hlen : (turnRows sid ts).length
      = 2 * (ts.filter (fun t => !(t.1 == ""))).length := by
    rw [turnRows, flatten_turnMsgs_length]
  rw [fetch_history, hsess, List.take_of_length_le (by rw [hlen]; exact hL)]
  rw [history_eq_chatAux, turnRows, chatAux_flatten_turnMsgs]

/-- Witness for C1: three submissions (success, empty no-op, backend down)
replay as exactly the two effective pairs. -/
theorem c1_replay_roundtrip_witness :
    history_to_chat_pairs (fetch_history 4 (runTurns 40 "sp" "s" [] []
        [("hi", .response "yo" "m"), ("", .exn "x"), ("q", .exn "down")]).2 "s")
      = [("hi", "yo"), ("q", "Error: down")] := by
  have h := c1_replay_roundtrip 40 4 "sp" "s" [] []
    [("hi", .response "yo" "m"), ("", .exn "x"), ("q", .exn "down")] rfl (by decide)
  rw [h]
  decide

end OllamaUI
